import Mathlib

/-!
Verification development for the Multi-Agent-Coder orchestration engine
(`src/app.py`).  The Python source is shallowly embedded: pure string
processing becomes functions over `List Char`, the subprocess / filesystem /
network boundaries become explicit oracle parameters, and the agent loops
become recursive functions over lists of per-step environments.  All
definitions follow the Python source line by line; the few places where an
external effect (OS error, wall clock, thread identity) cannot be reflected
are noted in the doc comment of the definition concerned.
-/

set_option linter.unusedVariables false

namespace MultiAgent

/-- Character-list view of a Python `str`; all parsing runs on this type. -/
abbrev Str := List Char

/-- Python `str.isspace` for the ASCII whitespace characters that occur in
this program's data (`str.strip`/`\s` in the source regexes). -/
def pySpace (c : Char) : Bool :=
  c == ' ' || c == '\t' || c == '\n' || c == '\r' || c == '\x0b' || c == '\x0c'

/-- Python `str.strip()` on a character list (ASCII whitespace). -/
def stripL (l : Str) : Str :=
  ((l.dropWhile pySpace).reverse.dropWhile pySpace).reverse

/-- Python `str.lower()` (ASCII; the strings compared in the source are ASCII). -/
def toLowerL (l : Str) : Str := l.map Char.toLower

/-- Python `str.lower()` at `String` type. -/
def strLower (s : String) : String := String.mk (toLowerL s.data)

/-- Index of the first occurrence of `pat` in `s` (leftmost match, like
`str.find` / the scanning of `re`). -/
def findSubIdx (pat : Str) : Str → Option Nat
  | [] => if pat.isEmpty then some 0 else none
  | c :: cs =>
    if pat.isPrefixOf (c :: cs) then some 0
    else (findSubIdx pat cs).map (· + 1)

/-- Python `pat in s` on character lists. -/
def containsSubL (pat s : Str) : Bool := (findSubIdx pat s).isSome

/-- Python `sub in s` on strings. -/
def strContains (s sub : String) : Bool := containsSubL sub.data s.data

/-- Python `s.split(sep)` for a single-character separator
(`"".split('\n') = [""]`, trailing separator yields a trailing `""`). -/
def splitOnChar (sep : Char) : Str → List Str
  | [] => [[]]
  | c :: cs =>
    if c == sep then [] :: splitOnChar sep cs
    else
      match splitOnChar sep cs with
      | [] => [[c]]
      | l :: ls => (c :: l) :: ls

/-- Fuel-indexed worker for `splitOnStr`; each step drops at least
`sep.length ≥ 1` characters, so fuel `s.length + 1` is always enough. -/
def splitOnStrAux (sep : Str) : Nat → Str → List Str
  | 0, s => [s]
  | fuel + 1, s =>
    match findSubIdx sep s with
    | none => [s]
    | some i => s.take i :: splitOnStrAux sep fuel (s.drop (i + sep.length))

/-- Python `s.split(sep)` for a non-empty multi-character separator. -/
def splitOnStr (sep s : Str) : List Str := splitOnStrAux sep (s.length + 1) s

/-- Python `' '.join(parts)`. -/
def joinSpace (parts : List Str) : Str := List.intercalate [' '] parts

/-- Value of a non-empty all-digit character list, else `none`. -/
def digitsVal (ds : Str) : Option Nat :=
  if ds.isEmpty || !ds.all (fun c => c.isDigit) then none
  else some (ds.foldl (fun acc c => acc * 10 + (c.toNat - '0'.toNat)) 0)

/-- Python `int(s)` restricted to what can reach it in this program: optional
surrounding whitespace, optional sign, decimal digits.  (Underscore digit
grouping cannot occur here because the argument is a piece of a
`split("_")`.)  `none` models the `ValueError` branch. -/
def pyInt (s : String) : Option Int :=
  match stripL s.data with
  | '+' :: ds => (digitsVal ds).map (fun n => (n : Int))
  | '-' :: ds => (digitsVal ds).map (fun n => -(n : Int))
  | ds => (digitsVal ds).map (fun n => (n : Int))

/-- One conversation entry of `self.messages` (a dict with a `role` key and
a `content` key in the source). -/
structure Message where
  role : String
  content : String
deriving DecidableEq, Repr

/-- The `Task` dataclass (src/app.py lines 47-56).  `created_at` is a wall
clock reading and is not reflected. -/
structure Task where
  id : String
  description : String
  branch : String
  phase : Int
  status : String
  assigned_to : Option String
  output : Option String
deriving DecidableEq, Repr

/-- Observable side effects of the embedded operations, in the order the
source performs them. -/
inductive Effect where
  | readFile (path : String)
  | makeDirs (path : String)
  | writeFile (path : String) (content : String)
  | runCommand (cmd : String)
deriving DecidableEq, Repr

/-- Outcome of one `subprocess.run` call, supplied as an oracle: the process
finished (with captured stdout/stderr/exit code), the call raised
`TimeoutExpired`, or launching raised some other exception. -/
inductive RunOutcome where
  | finished (stdout stderr : String) (returncode : Int)
  | timedOut
  | launchError (msg : String)

/-- `BashExecutor.run` (src/app.py lines 82-121).  The subprocess boundary is
the `outcome` oracle; `cwd` only affects a directory-creation side effect in
the source and does not enter the returned value.  Every outcome of the
source function is a returned `(success, output)` pair — the `except` arms
return rather than re-raise — which the embedding reflects by being total. -/
def BashExecutor_run (command : String) (cwd : Option String) (timeout : Nat)
    (outcome : RunOutcome) : Bool × String :=
  match outcome with
  | .finished stdout stderr returncode =>
    let output := "$ " ++ command ++ "\n"
    let output := if stdout = "" then output else output ++ stdout ++ "\n"
    let output := if stderr = "" then output else output ++ "STDERR: " ++ stderr ++ "\n"
    let output := output ++ "Exit code: " ++ toString returncode ++ "\n"
    (returncode == 0, output)
  | .timedOut =>
    (false, "$ " ++ command ++ "\nERROR: Command timed out after " ++ toString timeout ++ " seconds")
  | .launchError msg =>
    (false, "$ " ++ command ++ "\nERROR: " ++ msg)

/-- Fuel-indexed worker for `scanAll`.  Mirrors how `re.findall`/`finditer`
scan: try a match at the current position; on success continue after the
match, otherwise advance one character.  Every matcher used here consumes at
least one character on success, so fuel `s.length` covers the whole scan. -/
def scanAllAux {α : Type} (tryMatch : Str → Option (α × Str)) : Nat → Str → List α
  | 0, _ => []
  | _ + 1, [] => []
  | fuel + 1, c :: cs =>
    match tryMatch (c :: cs) with
    | some (a, rest) => a :: scanAllAux tryMatch fuel rest
    | none => scanAllAux tryMatch fuel cs

/-- Left-to-right non-overlapping scan with `tryMatch`, the common engine of
the `re.findall` / `re.finditer` calls in the source. -/
def scanAll {α : Type} (tryMatch : Str → Option (α × Str)) (s : Str) : List α :=
  scanAllAux tryMatch s.length s

/-- Consume the literal `lit` at the head of `s`. -/
def dropLit (lit : Str) (s : Str) : Option Str :=
  if lit.isPrefixOf s then some (s.drop lit.length) else none

/-- Consume `\s*` (Python whitespace). -/
def dropWs (s : Str) : Str := s.dropWhile pySpace

/-- Consume `([^"]+)"`: a non-empty run of non-quote characters closed by a
double quote, returning the captured run and the remainder. -/
def matchQuoted (s : Str) : Option (Str × Str) :=
  let q := s.takeWhile (fun c => !(c == '"'))
  if q.isEmpty then none
  else
    match s.drop q.length with
    | '"' :: rest => some (q, rest)
    | _ => none

/-- One match of the block pattern of `extract_bash_commands`
(src/app.py line 169): ```` ```bash\n(.*?)\n``` ```` with `re.DOTALL`, the
capture being the shortest span closed by a newline-fence. -/
def matchBashBlock (s : Str) : Option (Str × Str) := do
  let s1 ← dropLit "```bash\n".data s
  let i ← findSubIdx "\n```".data s1
  some (s1.take i, s1.drop (i + 4))

/-- All captured bash block bodies of a reply, in order (the `re.findall` of
src/app.py line 169). -/
def findBashBlocks (text : Str) : List Str := scanAll matchBashBlock text

/-- Match of `\)\s*>+\s*\S+` anchored at the head of `s`, returning the
number of characters the match spans (src/app.py line 176).  The one
backtracking case of the Python pattern is reproduced: when the `>` run sits
at the very end of the block (so `\S+` has nothing left), the engine gives
one `>` back to serve as the `\S+` target, which needs at least two `>`. -/
def matchRedirectAt : Str → Option Nat
  | [] => none
  | c :: rest =>
    if c == ')' then
      let ws1 := rest.takeWhile pySpace
      let r1 := rest.dropWhile pySpace
      let gts := r1.takeWhile (fun g => g == '>')
      if gts.isEmpty then none
      else
        let r2 := r1.drop gts.length
        let ws2 := r2.takeWhile pySpace
        let r3 := r2.dropWhile pySpace
        let tgt := r3.takeWhile (fun t => !(pySpace t))
        if !tgt.isEmpty then
          some (1 + ws1.length + gts.length + ws2.length + tgt.length)
        else if gts.length ≥ 2 then
          some (1 + ws1.length + gts.length)
        else none
    else none

/-- `re.search(r'\)\s*>+\s*\S+', block)` (src/app.py line 176): index just
past the leftmost match, i.e. Python's `redirect_match.end()`. -/
def searchRedirect : Str → Option Nat
  | [] => none
  | c :: cs =>
    match matchRedirectAt (c :: cs) with
    | some n => some n
    | none => (searchRedirect cs).map (· + 1)

/-- The "output-looking" heuristics filter list (src/app.py lines 189-192 and
213-216). -/
def outputPatterns : List String :=
  ["switched to", "already up to date", "output:", "error:",
   "volume in drive", "directory of", "exit code:"]

/-- A line matching one of the output heuristics
(`any(pattern in line.lower() for pattern in [...])`). -/
def outputLike (line : Str) : Bool :=
  outputPatterns.any (fun p => containsSubL p.data (toLowerL line))

/-- `line.startswith('#')`. -/
def startsHash (line : Str) : Bool := line.head? == some '#'

/-- `line.startswith('CREATE_SWE_AGENT')` (the spawn-directive text). -/
def spawnStart (line : Str) : Bool := ("CREATE_SWE_AGENT".data).isPrefixOf line

/-- Trailing-line loop after a grouped command (src/app.py lines 185-194):
strip each line; keep it unless blank, a comment, output-looking, or a spawn
directive. -/
def groupedTrailing : List Str → List Str
  | [] => []
  | l :: ls =>
    let line := stripL l
    if !line.isEmpty && !startsHash line then
      if !outputLike line then
        if !spawnStart line then line :: groupedTrailing ls
        else groupedTrailing ls
      else groupedTrailing ls
    else groupedTrailing ls

/-- Fallback loop for a grouped block without a redirect (src/app.py lines
199-203): per-line, dropping blanks, comments and bare parentheses. -/
def malformedLines : List Str → List Str
  | [] => []
  | l :: ls =>
    let line := stripL l
    if !line.isEmpty && !startsHash line && !(line == ['(']) && !(line == [')']) then
      line :: malformedLines ls
    else malformedLines ls

/-- Regular per-line loop of `extract_bash_commands` (src/app.py lines
206-234), with `current` the `current_command` continuation accumulator:
blank/comment/output-looking lines are skipped (keeping the accumulator), a
trailing backslash joins lines, and a completed command is dropped when it
starts with the spawn directive.  A leftover accumulator is flushed at the
end without the spawn check, as in the source. -/
def regularLines : List Str → List Str → List Str
  | [], current =>
    match current with
    | [] => []
    | _ => [joinSpace current]
  | l :: ls, current =>
    let line := stripL l
    if line.isEmpty || startsHash line then regularLines ls current
    else if outputLike line then regularLines ls current
    else if line.getLast? == some '\\' then regularLines ls (current ++ [line.dropLast])
    else
      let full := joinSpace (current ++ [line])
      if spawnStart full then regularLines ls []
      else full :: regularLines ls []

/-- Per-block body of `extract_bash_commands` (src/app.py lines 170-234):
strip the block; if it opens with `(` and contains `)`, either cut at the
redirect match and re-split the remainder, or (malformed) fall back to naive
lines; otherwise run the regular per-line loop. -/
def processBlock (raw : Str) : List Str :=
  let block := stripL raw
  if block.head? == some '(' && block.contains ')' then
    match searchRedirect block with
    | some e =>
      let grouped := block.take e
      let remaining := stripL (block.drop e)
      grouped ::
        (if remaining.isEmpty then [] else groupedTrailing (splitOnChar '\n' remaining))
    | none => malformedLines (splitOnChar '\n' block)
  else regularLines (splitOnChar '\n' block) []

/-- `SimpleAgent.extract_bash_commands` (src/app.py lines 164-242). -/
def extract_bash_commands (text : String) : List String :=
  (((findBashBlocks text.data).map processBlock).flatten).map String.mk

/-- One match of `READ_FILE\s*\(\s*path="([^"]+)"\s*\)` (src/app.py line 309). -/
def matchReadFileCall (s : Str) : Option (String × Str) := do
  let s ← dropLit "READ_FILE".data s
  let s := dropWs s
  let s ← dropLit "(".data s
  let s := dropWs s
  let s ← dropLit "path=\"".data s
  let (p, s) ← matchQuoted s
  let s := dropWs s
  let s ← dropLit ")".data s
  some (String.mk p, s)

/-- `SimpleAgent.extract_read_file_calls` (src/app.py lines 304-316). -/
def extract_read_file_calls (text : String) : List String :=
  scanAll matchReadFileCall text.data

/-- A spawn directive parsed by `extract_tool_calls`; the `"tool"` key is the
constant `"create_swe_agent"` for every entry and is not carried. -/
structure SpawnCall where
  task_id : String
  description : String
  branch : String
deriving DecidableEq, Repr

/-- One match of the `CREATE_SWE_AGENT(...)` pattern (src/app.py lines
353-356). -/
def matchSweCall (s : Str) : Option (SpawnCall × Str) := do
  let s ← dropLit "CREATE_SWE_AGENT".data s
  let s := dropWs s
  let s ← dropLit "(".data s
  let s := dropWs s
  let s ← dropLit "task_id=\"".data s
  let (tid, s) ← matchQuoted s
  let s := dropWs s
  let s ← dropLit ",".data s
  let s := dropWs s
  let s ← dropLit "description=\"".data s
  let (desc, s) ← matchQuoted s
  let s := dropWs s
  let s ← dropLit ",".data s
  let s := dropWs s
  let s ← dropLit "branch=\"".data s
  let (br, s) ← matchQuoted s
  let s := dropWs s
  let s ← dropLit ")".data s
  some (⟨String.mk tid, String.mk desc, String.mk br⟩, s)

/-- `SimpleAgent.extract_tool_calls` (src/app.py lines 348-365). -/
def extract_tool_calls (text : String) : List SpawnCall :=
  scanAll matchSweCall text.data

/-- A file-creation request parsed by `extract_file_creations`
(src/app.py lines 256-260): `language` is `""` when the optional hint is
absent, and `content` is already stripped. -/
structure FileCreation where
  path : String
  language : String
  content : String
deriving DecidableEq, Repr

/-- One match of `<file\s+path="([^"]+)"\s*>```(?:(\w+)\n)?(.*?)```</file>`
with `re.DOTALL` (src/app.py line 249).  The optional language group matches
exactly when a non-empty word-character run after the opening fence is
immediately followed by a newline (shorter runs cannot satisfy the `\n`, so
no other backtracking outcome exists); `\w` is embedded for ASCII. -/
def matchFileTag (s : Str) : Option (FileCreation × Str) := do
  let s ← dropLit "<file".data s
  let ws := s.takeWhile pySpace
  let _ ← if ws.isEmpty then none else some ()
  let s := s.drop ws.length
  let s ← dropLit "path=\"".data s
  let (p, s) ← matchQuoted s
  let s := dropWs s
  let s ← dropLit ">".data s
  let s ← dropLit "```".data s
  let w := s.takeWhile (fun c => c.isAlphanum || c == '_')
  let (lang, s) :=
    if !w.isEmpty && (s.drop w.length).head? == some '\n'
    then (w, (s.drop w.length).drop 1) else (([] : Str), s)
  let i ← findSubIdx "```</file>".data s
  some (⟨String.mk p, String.mk lang, String.mk (stripL (s.take i))⟩,
        s.drop (i + "```</file>".length))

/-- `SimpleAgent.extract_file_creations` (src/app.py lines 244-264). -/
def extract_file_creations (text : String) : List FileCreation :=
  scanAll matchFileTag text.data

/-- Outcome of one `litellm.completion` attempt, supplied as an oracle
indexed by the attempt number: `ok` carries the reply text, `err` the text of
the raised exception. -/
inductive AttemptOutcome where
  | ok (reply : String)
  | err (msg : String)

/-- The retry classification of `query_llm` (src/app.py line 401):
`"rate limit" in str(e).lower() or "timeout" in str(e).lower()`. -/
def retryableError (e : String) : Bool :=
  strContains (strLower e) "rate limit" || strContains (strLower e) "timeout"

/-- Loop body of `query_llm` (src/app.py lines 373-410).  `fuel` is the
number of attempts still available (the `for attempt in range(max_retries)`
bound), `attempt` the current index; `delays` records the `time.sleep`
durations actually waited, in order.  Falling off the loop returns the
function's implicit Python `None`, embedded as `none`. -/
def queryGo (outcomes : Nat → AttemptOutcome) (maxRetries : Nat) :
    Nat → Nat → List Message → List Nat → Option String × List Message × List Nat
  | 0, _, msgs, delays => (none, msgs, delays)
  | fuel + 1, attempt, msgs, delays =>
    let delays := if attempt > 0 then delays ++ [2 ^ attempt] else delays
    match outcomes attempt with
    | .ok reply => (some reply, msgs ++ [⟨"assistant", reply⟩], delays)
    | .err e =>
      if retryableError e then
        queryGo outcomes maxRetries fuel (attempt + 1) msgs delays
      else if attempt = maxRetries - 1 then
        let fallback := "LLM query failed after " ++ toString maxRetries ++
          " attempts. Last error: " ++ e
        let msgs :=
          if (msgs.getLast?.map (fun m => m.role)) = some "user"
          then msgs.dropLast else msgs
        (some fallback, msgs, delays)
      else queryGo outcomes maxRetries fuel (attempt + 1) msgs delays

/-- `SimpleAgent.query_llm` (src/app.py lines 367-410): append the user
message, then attempt the model call up to `maxRetries` times.  Returns the
reply (`none` for the implicit Python `None`), the conversation afterwards,
and the backoff delays slept. -/
def query_llm (msgs : List Message) (message : String) (maxRetries : Nat)
    (outcomes : Nat → AttemptOutcome) : Option String × List Message × List Nat :=
  queryGo outcomes maxRetries maxRetries 0 (msgs ++ [⟨"user", message⟩]) []

/-- `os.path.join` for POSIX paths as used on the model-supplied `path`
values: an absolute second component replaces the first, otherwise the
components are joined with a single separator. -/
def pathJoin (a b : String) : String :=
  if b.data.head? = some '/' then b
  else if a = "" then b
  else if a.data.getLast? = some '/' then a ++ b
  else a ++ "/" ++ b

/-- Strip trailing `/` characters. -/
def rstripSlash (l : Str) : Str := (l.reverse.dropWhile (fun c => c == '/')).reverse

/-- `os.path.dirname` for POSIX paths: the prefix up to the last separator,
with trailing separators stripped unless the prefix is all separators. -/
def pathDirname (p : String) : String :=
  let head := (p.data.reverse.dropWhile (fun c => !(c == '/'))).reverse
  if head.all (fun c => c == '/') then String.mk head
  else String.mk (rstripSlash head)

/-- Filesystem answer for one `open(..., 'r')`/`os.path.exists` probe,
supplied as an oracle keyed by the full path: the file exists with the given
content, does not exist, or the OS raises (permission, encoding, ...). -/
inductive FsOutcome where
  | found (content : String)
  | missing
  | oserror (msg : String)

/-- `SimpleAgent.execute_read_file` (src/app.py lines 318-346): join the
model-supplied path to the project directory (no containment validation),
probe it, and on success append the file content to the conversation.
Returns the `(success, output)` pair, the messages appended, and the effect
trace. -/
def execute_read_file (dir : String) (fs : String → FsOutcome) (path : String) :
    (Bool × String) × List Message × List Effect :=
  let fullPath := pathJoin dir path
  match fs fullPath with
  | .missing => ((false, "File not found: " ++ path), [], [])
  | .found content =>
    let output := "Contents of " ++ path ++ ":\n" ++ content
    ((true, output), [⟨"user", output⟩], [.readFile fullPath])
  | .oserror e =>
    ((false, "Failed to read file " ++ path ++ ": " ++ e), [], [.readFile fullPath])

/-- The read loop of a worker step (src/app.py lines 737-740): execute each
`READ_FILE` request in order, collecting results, appended messages and
effects. -/
def runReads (dir : String) (fs : String → FsOutcome) :
    List String → List (Bool × String) × List Message × List Effect
  | [] => ([], [], [])
  | p :: ps =>
    let r := execute_read_file dir fs p
    let rest := runReads dir fs ps
    (r.1 :: rest.1, r.2.1 ++ rest.2.1, r.2.2 ++ rest.2.2)

/-- `SimpleAgent.create_files_from_tags` (src/app.py lines 266-302): for each
request, join the model-supplied path to the project directory (no
containment validation), create the parent directory when the dirname is
non-empty, write the file, and append a confirmation message.  `createErr`
is the OS oracle: `none` means the `try` body succeeds, `some e` that it
raises `e` (in which case no confirmation is appended). -/
def create_files_from_tags (dir : String) (createErr : String → Option String) :
    List FileCreation → List (Bool × String) × List Message × List Effect
  | [] => ([], [], [])
  | f :: fsRest =>
    let fullPath := pathJoin dir f.path
    let dirPath := pathDirname fullPath
    let (res, msgs, effs) :=
      match createErr fullPath with
      | none =>
        ((true, "Created file: " ++ f.path ++ "\nSize: " ++ toString f.content.length
            ++ " bytes"),
         [(⟨"user", "File created: " ++ f.path⟩ : Message)],
         (if dirPath = "" then [] else [Effect.makeDirs dirPath])
           ++ [Effect.writeFile fullPath f.content])
      | some e =>
        ((false, "Failed to create file " ++ f.path ++ ": " ++ e), [], [])
    let rest := create_files_from_tags dir createErr fsRest
    (res :: rest.1, msgs ++ rest.2.1, effs ++ rest.2.2)

/-- `SimpleAgent.execute_bash_commands` (src/app.py lines 412-436): run each
command through `BashExecutor.run` in the project directory, append its full
captured output to the conversation, and stop the batch at the first
failure. -/
def execute_bash_commands (dir : String) (runOracle : String → RunOutcome) :
    List String → List (Bool × String) × List Message × List Effect
  | [] => ([], [], [])
  | c :: cs =>
    let r := BashExecutor_run c (some dir) 30 (runOracle c)
    let msg : Message := ⟨"user", "Command executed:\n" ++ r.2⟩
    if r.1 then
      let rest := execute_bash_commands dir runOracle cs
      (r :: rest.1, msg :: rest.2.1, Effect.runCommand c :: rest.2.2)
    else ([r], [msg], [Effect.runCommand c])

/-- The external world of one worker step: the model reply for the step and
the filesystem / process oracles in effect while its actions are applied. -/
structure StepEnv where
  reply : String
  fs : String → FsOutcome
  createErr : String → Option String
  run : String → RunOutcome

/-- The action-application body of one worker step (src/app.py lines
734-752): first every `READ_FILE`, then every file creation, then the bash
batch, accumulating `(success, output)` results, conversation messages and
effects in that order.  The conversation appends are returned (to be added
after the caller's current messages). -/
def applyReplyCore (dir : String) (env : StepEnv) :
    List (Bool × String) × List Message × List Effect :=
  let reads := runReads dir env.fs (extract_read_file_calls env.reply)
  let files := create_files_from_tags dir env.createErr (extract_file_creations env.reply)
  let cmds := execute_bash_commands dir env.run (extract_bash_commands env.reply)
  (reads.1 ++ files.1 ++ cmds.1,
   reads.2.1 ++ files.2.1 ++ cmds.2.1,
   reads.2.2 ++ files.2.2 ++ cmds.2.2)

/-- The completion signals searched in action outputs (src/app.py line 756). -/
def completion_signals : List String :=
  ["task completed", "implementation complete", "finished implementation"]

/-- The completion phrases searched in the raw reply (src/app.py line 773). -/
def completion_phrases : List String :=
  ["task completed", "implementation complete", "done", "finished", "task is complete"]

/-- Output-based completion detection of a worker step (src/app.py lines
754-756): only reached when the step extracted at least one bash command,
and then scans all of the step's results. -/
def stepDetA (dir : String) (env : StepEnv) : Bool :=
  !(extract_bash_commands env.reply).isEmpty &&
    (applyReplyCore dir env).1.any
      (fun r => completion_signals.any (fun s => strContains (strLower r.2) s))

/-- Reply-based completion detection of a worker step (src/app.py line 773):
a plain substring search over the lowercased reply. -/
def stepDetB (env : StepEnv) : Bool :=
  completion_phrases.any (fun p => strContains (strLower env.reply) p)

/-- A worker step ends the run iff either detection fires. -/
def stepDetected (dir : String) (env : StepEnv) : Bool :=
  stepDetA dir env || stepDetB env

/-- The stage-and-commit sequence run on completion detection (src/app.py
lines 760-765 and 777-784). -/
def commitEffects (task : Task) : List Effect :=
  [Effect.runCommand "git add .",
   Effect.runCommand ("git commit -m \"Phase " ++ toString task.phase ++ ": "
     ++ task.description ++ "\"")]

/-- `max_steps` of the worker loop (src/app.py line 724). -/
def max_steps : Nat := 15

/-- The continuation prompt of steps after the first (src/app.py line 732). -/
def continuePrompt : String := "Continue with the implementation. What's next?"

/-- The initial worker prompt (src/app.py lines 698-722). -/
def initialPrompt (task : Task) (dir : String) : String :=
  "\nTask: " ++ task.description ++ "\nBranch: " ++ task.branch ++
  "\nProject Directory: " ++ dir ++ "\nPhase: " ++ toString task.phase ++
  "\n\nIMPORTANT: You are currently in the directory: " ++ dir ++
  "\nAll commands will execute in this directory.\n\nSPECIFIC INSTRUCTIONS:\n" ++
  task.description ++
  "\n\nFirst, check out your feature branch and implement the task. Use Windows commands to:\n" ++
  "1. Create and checkout the branch\n2. Implement the required functionality efficiently\n" ++
  "3. Test your implementation\n4. Commit your changes\n\nStart with these commands:\n" ++
  "```bash\ngit checkout -b " ++ task.branch ++ "\necho %cd%\ndir\n```\n"

/-- The step loop of `run_swe_agent` (src/app.py lines 724-794), with one
`StepEnv` per remaining step (so a full run passes a list of length
`max_steps`).  Returns the final task status, the final agent status, and
the effect trace.  Model queries are the `reply` oracles; both completion
branches and the step-budget fallback mark task and agent `completed`.  The
`except` wrapper (lines 796-799) marks both `failed` on an uncaught
exception; no operation of this embedding raises, matching a run in which no
uncaught exception occurs. -/
def run_swe_agent (task : Task) (dir : String) (msgs : List Message) (step : Nat) :
    List StepEnv → String × String × List Effect
  | [] => ("completed", "completed", [])
  | env :: rest =>
    let prompt := if step = 0 then initialPrompt task dir else continuePrompt
    let msgs1 := msgs ++ [⟨"user", prompt⟩, ⟨"assistant", env.reply⟩]
    let applied := applyReplyCore dir env
    let msgs2 := msgs1 ++ applied.2.1
    if stepDetA dir env then
      ("completed", "completed", applied.2.2 ++ commitEffects task)
    else if stepDetB env then
      ("completed", "completed", applied.2.2 ++ commitEffects task)
    else
      let r := run_swe_agent task dir msgs2 (step + 1) rest
      (r.1, r.2.1, applied.2.2 ++ r.2.2)

/-- The phase-completion check of the coordinator's wait loop (src/app.py
lines 646-647): all tasks of the project whose `phase` equals the current
phase number have status `completed`. -/
def phaseComplete (tasks : List Task) (phaseNum : Int) : Bool :=
  (tasks.filter (fun t => t.phase == phaseNum)).all (fun t => t.status == "completed")

/-- The default fallback plan (src/app.py lines 563-567). -/
def default_tool_calls : List SpawnCall :=
  [⟨"phase1_setup", "Create project structure and basic files", "feature/scaffolding"⟩,
   ⟨"phase2_core", "Implement core functionality", "feature/core"⟩,
   ⟨"phase2_ui", "Add user interface components", "feature/ui"⟩]

/-- Phase-number parsing from a task id (src/app.py lines 574-579):
`int(task_id.split("phase")[1].split("_")[0])`, defaulting to 1 when
`"phase"` is absent or the conversion raises. -/
def parsePhaseNum (taskId : String) : Int :=
  if containsSubL "phase".data taskId.data then
    match splitOnStr "phase".data taskId.data with
    | _ :: second :: _ =>
      match pyInt (String.mk ((splitOnChar '_' second).headD [])) with
      | some n => n
      | none => 1
    | _ => 1
  else 1

/-- Insert a call into the insertion-ordered phase grouping (the Python
`dict` keyed by phase number, src/app.py lines 570-583). -/
def addToGroup (k : Int) (c : SpawnCall) :
    List (Int × List SpawnCall) → List (Int × List SpawnCall)
  | [] => [(k, [c])]
  | (k2, l) :: rest =>
    if k2 = k then (k2, l ++ [c]) :: rest else (k2, l) :: addToGroup k c rest

/-- Group spawn calls by parsed phase number, preserving insertion order of
keys and of calls within a key. -/
def groupByPhase (calls : List SpawnCall) : List (Int × List SpawnCall) :=
  calls.foldl (fun acc c => addToGroup (parsePhaseNum c.task_id) c acc) []

/-- Insertion into an ascending list of phase numbers. -/
def insertSortedInt (x : Int) : List Int → List Int
  | [] => [x]
  | y :: ys => if x ≤ y then x :: y :: ys else y :: insertSortedInt x ys

/-- `sorted(phases.keys())`. -/
def sortInts (l : List Int) : List Int := l.foldr insertSortedInt []

/-- `phases[phase_num]`. -/
def lookupGroup (k : Int) : List (Int × List SpawnCall) → List SpawnCall
  | [] => []
  | (k2, l) :: rest => if k2 = k then l else lookupGroup k rest

/-- The `Task(...)` constructed for a spawn call in the phase loop
(src/app.py lines 607-612); `assigned_to` is filled in afterwards with a
fresh worker-agent UUID and is left `none` here. -/
def mkTask (phaseNum : Int) (c : SpawnCall) : Task :=
  ⟨c.task_id, c.description, c.branch, phaseNum, "pending", none, none⟩

/-- Task list built by the coordinator's planning stage from the extracted
spawn calls (src/app.py lines 560-613): fall back to the default plan when
none were extracted, group by parsed phase, then emit tasks phase by phase
in ascending order. -/
def buildPlannedTasks (toolCalls : List SpawnCall) : List Task :=
  let calls := if toolCalls.isEmpty then default_tool_calls else toolCalls
  let phases := groupByPhase calls
  (((sortInts (phases.map (fun p => p.1))).map
      (fun k => (lookupGroup k phases).map (mkTask k))).flatten)

/-- Coordinator planning as a function of the planning reply. -/
def pmPlannedTasks (reply : String) : List Task :=
  buildPlannedTasks (extract_tool_calls reply)

/-- POSIX `os.path.normpath` for an absolute path, used to state where a
joined path actually lands: drop empty and `.` segments and let `..` pop the
previous segment.  This definition belongs to the claim's notion of
"resolved target", not to the source (which never normalizes or validates). -/
def normAbsPath (p : String) : String :=
  let comps := (splitOnChar '/' p.data).filter
    (fun c => !c.isEmpty && !(c == ['.']))
  let final := comps.foldl
    (fun acc c => if c == ['.', '.'] then acc.dropLast else acc ++ [c]) []
  String.mk ('/' :: (List.intercalate ['/'] final))

/-- A resolved target escapes the project root when it is neither the root
itself nor strictly below it. -/
def escapesRoot (root target : String) : Bool :=
  let t := normAbsPath target
  !((root ++ "/").data.isPrefixOf t.data) && !(t == root)

/-- The trailing commands after a grouped block, in the words of the claim:
each trailing line, trimmed, kept when it is non-blank, not a comment, not
output-looking and not a spawn directive. -/
def trailingCommandsSpec (remaining : Str) : List Str :=
  ((splitOnChar '\n' remaining).map stripL).filter
    (fun l => !l.isEmpty && !startsHash l && !outputLike l && !spawnStart l)

/-- Claim-side view of the read pass: the `(success, output)` value of each
read request, determined by the filesystem oracle at the joined path. -/
def readResultsSpec (dir : String) (fs : String → FsOutcome) (paths : List String) :
    List (Bool × String) :=
  paths.map (fun p =>
    match fs (pathJoin dir p) with
    | .found c => (true, "Contents of " ++ p ++ ":\n" ++ c)
    | .missing => (false, "File not found: " ++ p)
    | .oserror e => (false, "Failed to read file " ++ p ++ ": " ++ e))

/-- Claim-side view of the read pass: each successfully read file's content
appended to the conversation as a user message, in request order. -/
def readMsgsSpec (dir : String) (fs : String → FsOutcome) (paths : List String) :
    List Message :=
  paths.filterMap (fun p =>
    match fs (pathJoin dir p) with
    | .found c => some ⟨"user", "Contents of " ++ p ++ ":\n" ++ c⟩
    | _ => none)

/-- Claim-side view of the read pass effects. -/
def readEffsSpec (dir : String) (fs : String → FsOutcome) (paths : List String) :
    List Effect :=
  paths.filterMap (fun p =>
    match fs (pathJoin dir p) with
    | .missing => none
    | _ => some (.readFile (pathJoin dir p)))

/-- Claim-side view of the creation pass: the per-file `(success, output)`
values. -/
def fileResultsSpec (dir : String) (createErr : String → Option String)
    (files : List FileCreation) : List (Bool × String) :=
  files.map (fun f =>
    match createErr (pathJoin dir f.path) with
    | none => (true, "Created file: " ++ f.path ++ "\nSize: "
        ++ toString f.content.length ++ " bytes")
    | some e => (false, "Failed to create file " ++ f.path ++ ": " ++ e))

/-- Claim-side view of the creation pass: one confirmation message appended
per successfully created file, in request order. -/
def fileMsgsSpec (dir : String) (createErr : String → Option String)
    (files : List FileCreation) : List Message :=
  files.filterMap (fun f =>
    match createErr (pathJoin dir f.path) with
    | none => some ⟨"user", "File created: " ++ f.path⟩
    | some _ => none)

/-- Claim-side view of the creation pass effects: parent directory creation
as needed, then the write, per successful file. -/
def fileEffsSpec (dir : String) (createErr : String → Option String)
    (files : List FileCreation) : List Effect :=
  (files.map (fun f =>
    match createErr (pathJoin dir f.path) with
    | none =>
      (if pathDirname (pathJoin dir f.path) = "" then []
       else [Effect.makeDirs (pathDirname (pathJoin dir f.path))])
        ++ [Effect.writeFile (pathJoin dir f.path) f.content]
    | some _ => [])).flatten

/-- The commands of a batch that actually run, in the words of the claim:
the extraction-order prefix through the first failing command, all remaining
commands being skipped. -/
def cmdsUpToFirstFailure (dir : String) (runOracle : String → RunOutcome) :
    List String → List String
  | [] => []
  | c :: cs =>
    if (BashExecutor_run c (some dir) 30 (runOracle c)).1
    then c :: cmdsUpToFirstFailure dir runOracle cs
    else [c]

/-- Claim-side view of the command batch results. -/
def cmdResultsSpec (dir : String) (runOracle : String → RunOutcome)
    (cmds : List String) : List (Bool × String) :=
  (cmdsUpToFirstFailure dir runOracle cmds).map
    (fun c => BashExecutor_run c (some dir) 30 (runOracle c))

/-- Claim-side view of the command batch messages: each executed command's
captured output appended before the next command runs. -/
def cmdMsgsSpec (dir : String) (runOracle : String → RunOutcome)
    (cmds : List String) : List Message :=
  (cmdsUpToFirstFailure dir runOracle cmds).map
    (fun c => ⟨"user", "Command executed:\n"
        ++ (BashExecutor_run c (some dir) 30 (runOracle c)).2⟩)

/-- Claim-side view of the command batch effects. -/
def cmdEffsSpec (dir : String) (runOracle : String → RunOutcome)
    (cmds : List String) : List Effect :=
  (cmdsUpToFirstFailure dir runOracle cmds).map Effect.runCommand

/-- A step environment whose reply is empty and whose oracles are inert;
used to instantiate the worker-loop theorems on concrete runs. -/
def trivialStepEnv : StepEnv :=
  ⟨"", fun _ => .missing, fun _ => none, fun _ => .finished "" "" 0⟩

/-- A concrete task used to instantiate the worker-loop theorems. -/
def workerTask0 : Task :=
  ⟨"phase1_setup", "demo task", "feature/demo", 1, "in_progress", none, none⟩

/-- A step environment whose reply holds the completion phrase `"done"` only
inside the negated phrase "not done yet". -/
def phraseEnv : StepEnv :=
  ⟨"The task is not done yet", fun _ => .missing, fun _ => none,
   fun _ => .finished "" "" 0⟩

/-- Claim C1: the claim states that whenever all configured model-call
attempts fail, `query_llm` returns a non-empty synthetic failure string,
removes the pending user message, and leaves the conversation length
unchanged, regardless of the failure classification.  The code violates
this: when the final attempt's error is classified rate-limit/timeout, the
`continue` skips the fallback arm, the loop falls off the end, and the
function returns Python `None` with the dangling user message still
appended.  This theorem evaluates the embedding at that failing input (all
three attempts raise "Rate limit exceeded"): the reply is `none`, the
conversation has grown by one, and the backoff delays 2 and 4 were slept.
For contrast, a final attempt failing with a non-retryable error ("boom")
behaves exactly as the claim describes. -/
theorem C1_rate_limited_exhaustion_returns_none :
    (query_llm [⟨"system", "s"⟩] "do the task" 3 (fun _ => .err "Rate limit exceeded")).1 = none
    ∧ (query_llm [⟨"system", "s"⟩] "do the task" 3 (fun _ => .err "Rate limit exceeded")).2.1
        = [⟨"system", "s"⟩, ⟨"user", "do the task"⟩]
    ∧ (query_llm [⟨"system", "s"⟩] "do the task" 3 (fun _ => .err "Rate limit exceeded")).2.1.length
        = ([⟨"system", "s"⟩] : List Message).length + 1
    ∧ (query_llm [⟨"system", "s"⟩] "do the task" 3 (fun _ => .err "Rate limit exceeded")).2.2
        = [2, 4]
    ∧ (query_llm [⟨"system", "s"⟩] "do the task" 3 (fun _ => .err "boom")).1
        = some "LLM query failed after 3 attempts. Last error: boom"
    ∧ (query_llm [⟨"system", "s"⟩] "do the task" 3 (fun _ => .err "boom")).2.1
        = [⟨"system", "s"⟩] := by
  decide

/-- Claim C3: the coordinator's phase-k wait check succeeds if and only if
every task whose `phase` equals k has status `completed`; tasks of other
phases never affect the check (it only depends on the same-phase sublist);
and a same-phase `failed` task forces the check to fail (the loop keeps
waiting). -/
theorem C3_phase_gate (tasks : List Task) (k : Int) :
    (phaseComplete tasks k = true ↔ ∀ t ∈ tasks, t.phase = k → t.status = "completed")
    ∧ phaseComplete tasks k = phaseComplete (tasks.filter (fun t => t.phase == k)) k
    ∧ (∀ t ∈ tasks, t.phase = k → t.status = "failed" → phaseComplete tasks k = false) := by
  have hch : phaseComplete tasks k = true ↔
      ∀ t ∈ tasks, t.phase = k → t.status = "completed" := by
    simp [phaseComplete, List.all_eq_true, List.mem_filter]
    constructor
    · intro hall t ht hph
      rcases hall t ht with h | h
      · exact absurd hph h
      · exact h
    · intro hall t ht
      by_cases hph : t.phase = k
      · exact Or.inr (hall t ht hph)
      · exact Or.inl hph
  refine ⟨hch, ?_, ?_⟩
  · simp [phaseComplete, List.filter_filter]
  · intro t ht hph hst
    cases hpc : phaseComplete tasks k
    · rfl
    · have hc := hch.mp hpc t ht hph
      rw [hst] at hc
      exact absurd hc (by decide)

/-- Witness for C3: a concrete project with a `failed` task in phase 1 and a
`pending` task in phase 2 is not phase-1 complete. -/
theorem C3_phase_gate_witness :
    phaseComplete
      [⟨"t1", "d1", "b1", 1, "failed", none, none⟩,
       ⟨"t2", "d2", "b2", 2, "pending", none, none⟩] 1 = false :=
  (C3_phase_gate
      [⟨"t1", "d1", "b1", 1, "failed", none, none⟩,
       ⟨"t2", "d2", "b2", 2, "pending", none, none⟩] 1).2.2
    ⟨"t1", "d1", "b1", 1, "failed", none, none⟩
    (List.mem_cons_self _ _) (by decide) (by decide)

/-- Claim C5: when the planning reply yields zero spawn directives, the
coordinator falls back to exactly three default tasks spanning exactly two
phases: a phase-1 scaffolding task on `feature/scaffolding` and two phase-2
tasks on `feature/core` and `feature/ui`. -/
theorem C5_default_plan (reply : String)
    (h : extract_tool_calls reply = []) :
    pmPlannedTasks reply =
      [⟨"phase1_setup", "Create project structure and basic files",
         "feature/scaffolding", 1, "pending", none, none⟩,
       ⟨"phase2_core", "Implement core functionality", "feature/core",
         2, "pending", none, none⟩,
       ⟨"phase2_ui", "Add user interface components", "feature/ui",
         2, "pending", none, none⟩]
    ∧ (pmPlannedTasks reply).map (fun t => t.phase) = [1, 2, 2] := by
  have hp : pmPlannedTasks reply = buildPlannedTasks [] := by
    unfold pmPlannedTasks
    rw [h]
  rw [hp]
  exact ⟨by decide, by decide⟩

/-- Witness for C5: a concrete planning reply with no spawn directive
produces the default three-task plan. -/
theorem C5_default_plan_witness :
    extract_tool_calls "No agents needed yet." = []
    ∧ pmPlannedTasks "No agents needed yet." =
      [⟨"phase1_setup", "Create project structure and basic files",
         "feature/scaffolding", 1, "pending", none, none⟩,
       ⟨"phase2_core", "Implement core functionality", "feature/core",
         2, "pending", none, none⟩,
       ⟨"phase2_ui", "Add user interface components", "feature/ui",
         2, "pending", none, none⟩] :=
  ⟨by decide, (C5_default_plan "No agents needed yet." (by decide)).1⟩

/-- Claim C7: for every command, working directory and timeout, the executor
returns a `(success, output)` pair as a value (the embedding is total, as the
source's `except` arms return rather than re-raise): on timeout it returns
failure with an output noting the timeout after the configured seconds, on a
launch error it returns failure with the error text embedded in the output,
and a finished process succeeds exactly when its exit code is 0. -/
theorem C7_executor_outcomes_are_values (command : String) (cwd : Option String)
    (timeout : Nat) (e : String) :
    BashExecutor_run command cwd timeout .timedOut =
      (false, "$ " ++ command ++ "\nERROR: Command timed out after "
        ++ toString timeout ++ " seconds")
    ∧ BashExecutor_run command cwd timeout (.launchError e) =
      (false, "$ " ++ command ++ "\nERROR: " ++ e)
    ∧ ∀ stdout stderr rc,
        (BashExecutor_run command cwd timeout (.finished stdout stderr rc)).1 = (rc == 0) :=
  ⟨rfl, rfl, fun _ _ _ => rfl⟩

/-- Claim C8: a run-command `echo hi` finishing with exit code 0, stdout
`"hi\n"` and empty stderr yields exactly the captured output
`"$ echo hi\nhi\n\nExit code: 0\n"`, the STDERR section being omitted. -/
theorem C8_echo_hi_captured_output :
    BashExecutor_run "echo hi" (some "/proj") 30 (.finished "hi\n" "" 0) =
      (true, "$ echo hi\nhi\n\nExit code: 0\n") := by
  decide

/-- Claim C9: model-supplied paths are joined to the project directory with
no containment validation; for the supplied path `"../../secrets.txt"` the
resolved target lies outside the project root, and both the create and the
read operation still proceed on it (the create writes the file and reports
success, the read returns its contents). -/
theorem C9_path_traversal_not_validated :
    pathJoin "/srv/projects/demo" "../../secrets.txt"
        = "/srv/projects/demo/../../secrets.txt"
    ∧ normAbsPath "/srv/projects/demo/../../secrets.txt" = "/srv/secrets.txt"
    ∧ escapesRoot "/srv/projects/demo"
        (pathJoin "/srv/projects/demo" "../../secrets.txt") = true
    ∧ (create_files_from_tags "/srv/projects/demo" (fun _ => none)
         [⟨"../../secrets.txt", "", "stolen"⟩]).1
        = [(true, "Created file: ../../secrets.txt\nSize: 6 bytes")]
    ∧ (create_files_from_tags "/srv/projects/demo" (fun _ => none)
         [⟨"../../secrets.txt", "", "stolen"⟩]).2.2
        = [Effect.makeDirs "/srv/projects/demo/../..",
           Effect.writeFile "/srv/projects/demo/../../secrets.txt" "stolen"]
    ∧ (execute_read_file "/srv/projects/demo"
         (fun p => if p = "/srv/projects/demo/../../secrets.txt"
                   then .found "data" else .missing)
         "../../secrets.txt").1
        = (true, "Contents of ../../secrets.txt:\ndata") := by
  decide

/-- The read loop produces exactly the claim-side results, messages and
effects, in request order. -/
theorem runReads_characterization (dir : String) (fs : String → FsOutcome)
    (ps : List String) :
    runReads dir fs ps =
      (readResultsSpec dir fs ps, readMsgsSpec dir fs ps, readEffsSpec dir fs ps) := by
  induction ps with
  | nil => rfl
  | cons p ps ih =>
    simp only [runReads, ih, readResultsSpec, readMsgsSpec, readEffsSpec,
      List.map_cons, List.filterMap_cons, execute_read_file]
    cases h : fs (pathJoin dir p) <;> simp [h]

/-- The creation loop produces exactly the claim-side results, messages and
effects, in request order. -/
theorem createFiles_characterization (dir : String) (createErr : String → Option String)
    (files : List FileCreation) :
    create_files_from_tags dir createErr files =
      (fileResultsSpec dir createErr files, fileMsgsSpec dir createErr files,
       fileEffsSpec dir createErr files) := by
  induction files with
  | nil => rfl
  | cons f fsRest ih =>
    simp only [create_files_from_tags, ih, fileResultsSpec, fileMsgsSpec, fileEffsSpec,
      List.map_cons, List.filterMap_cons, List.flatten]
    cases h : createErr (pathJoin dir f.path) <;> simp [h]

/-- The command batch runs exactly the extraction-order prefix through the
first failure, appending each executed command's captured output message and
effect in order. -/
theorem executeBash_characterization (dir : String) (runOracle : String → RunOutcome)
    (cmds : List String) :
    execute_bash_commands dir runOracle cmds =
      (cmdResultsSpec dir runOracle cmds, cmdMsgsSpec dir runOracle cmds,
       cmdEffsSpec dir runOracle cmds) := by
  induction cmds with
  | nil => rfl
  | cons c cs ih =>
    simp only [execute_bash_commands, cmdResultsSpec, cmdMsgsSpec, cmdEffsSpec,
      cmdsUpToFirstFailure]
    cases h : (BashExecutor_run c (some dir) 30 (runOracle c)).1 <;>
      simp [h, ih, cmdResultsSpec, cmdMsgsSpec, cmdEffsSpec]

/-- Claim C6: a worker step applies a reply in the fixed order reads, then
file creations, then run-commands: the appended conversation messages are
the successful reads' contents, then one confirmation per created file, then
one captured output per executed command; the effect trace likewise is the
reads, then per-file directory creation and write, then the executed
commands; and the command batch is cut at the first failing command, each
executed command's output message preceding the next command's effect. -/
theorem C6_fixed_application_order (dir : String) (env : StepEnv) :
    applyReplyCore dir env =
      (readResultsSpec dir env.fs (extract_read_file_calls env.reply)
         ++ fileResultsSpec dir env.createErr (extract_file_creations env.reply)
         ++ cmdResultsSpec dir env.run (extract_bash_commands env.reply),
       readMsgsSpec dir env.fs (extract_read_file_calls env.reply)
         ++ fileMsgsSpec dir env.createErr (extract_file_creations env.reply)
         ++ cmdMsgsSpec dir env.run (extract_bash_commands env.reply),
       readEffsSpec dir env.fs (extract_read_file_calls env.reply)
         ++ fileEffsSpec dir env.createErr (extract_file_creations env.reply)
         ++ cmdEffsSpec dir env.run (extract_bash_commands env.reply)) := by
  simp only [applyReplyCore, runReads_characterization, createFiles_characterization,
    executeBash_characterization]

/-- A worker run in which no step detects completion walks through every
step environment and ends by the step-budget fallback, marking both statuses
`completed` and accumulating every step's effects. -/
theorem runSWE_no_detection (task : Task) (dir : String) :
    ∀ (envs : List StepEnv), (∀ e ∈ envs, stepDetected dir e = false) →
    ∀ (step : Nat) (msgs : List Message),
      run_swe_agent task dir msgs step envs =
        ("completed", "completed",
          (envs.map (fun e => (applyReplyCore dir e).2.2)).flatten) := by
  intro envs
  induction envs with
  | nil => intro _ step msgs; rfl
  | cons env rest ih =>
    intro h step msgs
    have he : stepDetA dir env = false ∧ stepDetB env = false := by
      have := h env (List.mem_cons_self _ _)
      rw [stepDetected] at this
      exact Bool.or_eq_false_iff.mp this
    rw [run_swe_agent]
    simp only [he.1, he.2, Bool.false_eq_true, if_false]
    rw [ih (fun e hmem => h e (List.mem_cons_of_mem _ hmem)) (step + 1)]
    simp

/-- Claim C2: a worker run that exhausts its `max_steps = 15` step budget
without completion being detected at any step (and, as in the embedding, no
uncaught exception) marks the task `completed` and the agent `completed`,
never `failed`. -/
theorem C2_step_budget_exhaustion_marks_completed (task : Task) (dir : String)
    (msgs : List Message) (envs : List StepEnv)
    (hlen : envs.length = max_steps)
    (hnodet : ∀ e ∈ envs, stepDetected dir e = false) :
    (run_swe_agent task dir msgs 0 envs).1 = "completed"
    ∧ (run_swe_agent task dir msgs 0 envs).2.1 = "completed"
    ∧ (run_swe_agent task dir msgs 0 envs).1 ≠ "failed" := by
  rw [runSWE_no_detection task dir envs hnodet 0 msgs]
  refine ⟨rfl, rfl, ?_⟩
  show ("completed" : String) ≠ "failed"
  decide

/-- Witness for C2: a concrete 15-step run whose replies never contain a
completion phrase and whose commands never produce one ends `completed`. -/
theorem C2_step_budget_witness :
    (List.replicate 15 trivialStepEnv).length = max_steps
    ∧ (run_swe_agent workerTask0 "/proj" [] 0 (List.replicate 15 trivialStepEnv)).1
        = "completed"
    ∧ (run_swe_agent workerTask0 "/proj" [] 0 (List.replicate 15 trivialStepEnv)).2.1
        = "completed" := by
  have h := C2_step_budget_exhaustion_marks_completed workerTask0 "/proj" []
    (List.replicate 15 trivialStepEnv) (by decide)
    (fun e he => by rw [List.eq_of_mem_replicate he]; decide)
  exact ⟨by decide, h.1, h.2.1⟩

/-- A worker run whose first `pre` steps detect nothing and whose next step's
reply contains a completion phrase stops at that step: it runs the
stage-and-commit sequence and marks both statuses `completed`, with no
effects from any later step. -/
theorem runSWE_detect_at (task : Task) (dir : String) (env : StepEnv)
    (rest : List StepEnv) (hdet : stepDetB env = true) :
    ∀ (pre : List StepEnv), (∀ e ∈ pre, stepDetected dir e = false) →
    ∀ (step : Nat) (msgs : List Message),
      run_swe_agent task dir msgs step (pre ++ env :: rest) =
        ("completed", "completed",
          ((pre.map (fun e => (applyReplyCore dir e).2.2)).flatten)
            ++ (applyReplyCore dir env).2.2 ++ commitEffects task) := by
  intro pre
  induction pre with
  | nil =>
    intro _ step msgs
    rw [List.nil_append, run_swe_agent]
    cases hA : stepDetA dir env
    · simp only [hA, Bool.false_eq_true, if_false, hdet, if_true]
      simp
    · simp only [hA, if_true]
      simp
  | cons p ps ih =>
    intro h step msgs
    have he : stepDetA dir p = false ∧ stepDetB p = false := by
      have := h p (List.mem_cons_self _ _)
      rw [stepDetected] at this
      exact Bool.or_eq_false_iff.mp this
    rw [List.cons_append, run_swe_agent]
    simp only [he.1, he.2, Bool.false_eq_true, if_false]
    rw [ih (fun e hmem => h e (List.mem_cons_of_mem _ hmem)) (step + 1)]
    simp

/-- Claim C10: at any worker step whose lowercased reply contains one of the
completion phrases (`"task completed"`, `"implementation complete"`,
`"done"`, `"finished"`, `"task is complete"`) as a plain substring — however
it is embedded, including inside a longer word or a negated phrase — the
worker immediately runs the stage-and-commit sequence, marks both the task
and the agent `completed`, and ends its run, executing nothing from any
later step. -/
theorem C10_reply_phrase_ends_run (task : Task) (dir : String) (msgs : List Message)
    (pre : List StepEnv) (env : StepEnv) (rest : List StepEnv)
    (hpre : ∀ e ∈ pre, stepDetected dir e = false)
    (hdet : stepDetB env = true) :
    run_swe_agent task dir msgs 0 (pre ++ env :: rest) =
      ("completed", "completed",
        ((pre.map (fun e => (applyReplyCore dir e).2.2)).flatten)
          ++ (applyReplyCore dir env).2.2 ++ commitEffects task) :=
  runSWE_detect_at task dir env rest hdet pre hpre 0 msgs

/-- Witness for C10: a first-step reply saying only "The task is not done
yet" still triggers immediate completion with the commit sequence. -/
theorem C10_reply_phrase_witness :
    stepDetB phraseEnv = true
    ∧ run_swe_agent workerTask0 "/proj" [] 0 ([] ++ phraseEnv :: []) =
      ("completed", "completed",
        ((([] : List StepEnv).map (fun e => (applyReplyCore "/proj" e).2.2)).flatten)
          ++ (applyReplyCore "/proj" phraseEnv).2.2 ++ commitEffects workerTask0) :=
  ⟨by decide,
   C10_reply_phrase_ends_run workerTask0 "/proj" [] [] phraseEnv []
     (fun e he => absurd he (List.not_mem_nil e)) (by decide)⟩

/-- The trailing-line loop of the grouped branch equals the claim-side
strip-then-filter description. -/
theorem groupedTrailing_eq_filter (ls : List Str) :
    groupedTrailing ls =
      (ls.map stripL).filter
        (fun l => !l.isEmpty && !startsHash l && !outputLike l && !spawnStart l) := by
  induction ls with
  | nil => rfl
  | cons l ls ih =>
    rw [groupedTrailing, List.map_cons, List.filter_cons]
    cases h1 : (stripL l).isEmpty <;> cases h2 : startsHash (stripL l) <;>
      cases h3 : outputLike (stripL l) <;> cases h4 : spawnStart (stripL l) <;>
      simp [h1, h2, h3, h4, ih]

/-- The source's guard on trailing lines (skip when the remainder strip is
empty) agrees with applying the claim-side filter directly. -/
theorem groupedTrailing_ite (remaining : Str) :
    (if remaining.isEmpty then []
     else groupedTrailing (splitOnChar '\n' remaining)) =
      trailingCommandsSpec remaining := by
  cases remaining with
  | nil => decide
  | cons c cs =>
    rw [trailingCommandsSpec, ← groupedTrailing_eq_filter]
    rfl

/-- A successful redirect search implies the block contains `)` (the second
half of the source's grouped-command guard). -/
theorem searchRedirect_contains : ∀ (b : Str) (e : Nat),
    searchRedirect b = some e → b.contains ')' = true := by
  intro b
  induction b with
  | nil => intro e h; simp [searchRedirect] at h
  | cons c cs ih =>
    intro e h
    rw [searchRedirect] at h
    by_cases hc : c = ')'
    · subst hc; simp [List.contains_cons]
    · have hcb : (c == ')') = false := by simp [hc]
      rw [matchRedirectAt, hcb] at h
      simp only [Bool.false_eq_true, if_false] at h
      cases hm : searchRedirect cs with
      | none => rw [hm] at h; simp at h
      | some e2 =>
        have hmem : ')' ∈ cs := by simpa using ih e2 hm
        simp [List.contains_cons]
        exact Or.inr hmem

/-- Claim C4: for a reply whose single bash block, once trimmed, opens with
`(` and has a redirect match ending at index `e`, extraction yields exactly
the grouped command (the block text through the redirection target) followed
by the remaining trailing lines, each trimmed and kept unless blank, a
comment, output-looking, or a spawn directive. -/
theorem C4_grouped_block_extraction (text : String) (block : Str) (e : Nat)
    (hfind : findBashBlocks text.data = [block])
    (hparen : (stripL block).head? = some '(')
    (hred : searchRedirect (stripL block) = some e) :
    extract_bash_commands text =
      String.mk ((stripL block).take e) ::
        (trailingCommandsSpec (stripL ((stripL block).drop e))).map String.mk := by
  have hcontains : (stripL block).contains ')' = true :=
    searchRedirect_contains _ _ hred
  have hhead : ((stripL block).head? == some '(') = true := by
    rw [hparen]; rfl
  unfold extract_bash_commands
  rw [hfind]
  simp only [List.map_cons, List.map_nil, List.flatten_cons, List.flatten_nil,
    List.append_nil]
  rw [processBlock, hhead, hcontains]
  simp only [Bool.and_self, if_true, hred]
  rw [groupedTrailing_ite]
  simp

/-- Witness for C4: a concrete grouped block with a trailing command and a
trailing output-looking line. -/
theorem C4_grouped_block_witness :
    findBashBlocks
        "```bash\n(echo a; echo b) > out.txt\nls -la\nOutput: done\n```".data
      = ["(echo a; echo b) > out.txt\nls -la\nOutput: done".data]
    ∧ extract_bash_commands
        "```bash\n(echo a; echo b) > out.txt\nls -la\nOutput: done\n```"
      = ["(echo a; echo b) > out.txt", "ls -la"] :=
  ⟨by decide,
   (C4_grouped_block_extraction
      "```bash\n(echo a; echo b) > out.txt\nls -la\nOutput: done\n```"
      "(echo a; echo b) > out.txt\nls -la\nOutput: done".data 26
      (by decide) (by decide) (by decide)).trans (by decide)⟩

end MultiAgent
